import Mathlib

/-!
Shallow embedding of the transaction-reconciliation core of the
`budhip/sementara` repository: the transaction model
(`internal/domain/transaction/transaction.go`, `internal/domain/types.go`)
and the exact-match engine (`pkg/matcher/exact_matcher.go`, match-result
statistics in the unnamed matcher file defining `MatchResult`,
`CalculateMatchRate`, `Finalize`).

Modelling conventions:
* Go `float64` amounts are modelled as exact rationals (`ℚ`); every
  concrete value used in counterexamples and witnesses is a dyadic
  rational that `float64` represents and computes exactly, so the model
  and the program agree on those inputs.  The float literal `0.001`
  (epsilon) is modelled as the rational `1/1000`.
* `time.Time` is modelled by the calendar date `(year, month, day)` that
  both `Time.Date()` and `Time.Format("2006-01-02")` expose; the engine
  only ever reads the calendar day.
* The grouping key, a Go string `date + "_" + type + "_" + runeChar`, is
  modelled as the triple of its three components; the Go concatenation
  is injective in those components (fixed-width date, `_`-free type tag,
  exactly one trailing rune), so string equality coincides with triple
  equality.
* `map[string]bool` consumed-sets and `map[string][]*Transaction`
  buckets built by in-order append are modelled as membership in a list
  of consumed IDs, and as in-order `List.filter` over the bank list.
* Fields of `Transaction` never read by the embedded functions
  (job/file IDs, source, raw data, timestamps, the `Matched` flag the
  engine does not touch) are omitted.  `Match`'s `error` result is
  always `nil` in the source and is omitted.
-/

namespace Reconcile

/-- Calendar date as produced by Go `time.Time.Date()`. -/
structure GoDate where
  year : Int
  month : Nat
  day : Nat
deriving DecidableEq

/-- `domain.TransactionTypeDebit` (Go `TransactionType` is a string type). -/
def TransactionTypeDebit : String := "DEBIT"

/-- `domain.TransactionTypeCredit`. -/
def TransactionTypeCredit : String := "CREDIT"

/-- The fields of `transaction.Transaction` read by the matching engine
and the normalization pass. -/
structure Transaction where
  id : String
  transactionDate : GoDate
  amount : ℚ
  type : String
deriving DecidableEq

/-- `Transaction.IsDebit`: `t.Type == domain.TransactionTypeDebit || t.Amount < 0`. -/
def IsDebit (t : Transaction) : Bool :=
  decide (t.type = TransactionTypeDebit) || decide (t.amount < 0)

/-- `Transaction.AbsAmount`: `if t.Amount < 0 { return -t.Amount }; return t.Amount`. -/
def AbsAmount (t : Transaction) : ℚ :=
  if t.amount < 0 then -t.amount else t.amount

/-- `Transaction.NormalizeAmount` (the amount update; the Go method also
touches `UpdatedAt`, which is not part of the model). -/
def NormalizeAmount (t : Transaction) : Transaction :=
  if t.type = TransactionTypeDebit ∧ 0 < t.amount then
    { t with amount := -t.amount }
  else if t.type = TransactionTypeCredit ∧ t.amount < 0 then
    { t with amount := -t.amount }
  else
    t

/-- Go conversion `int(x)` from `float64`: truncation toward zero. -/
def goTrunc (q : ℚ) : Int :=
  if q < 0 then -⌊-q⌋ else ⌊q⌋

/-- Go conversion `rune(i)` from `int` (64-bit): wrap to signed 32 bits. -/
def goRuneWrap (i : Int) : Int :=
  (i + 2 ^ 31) % 2 ^ 32 - 2 ^ 31

/-- Go conversion `string(r)` for a rune `r`: values outside the valid
Unicode-scalar range (negative, surrogate, above `0x10FFFF`) all become
`U+FFFD`.  We record the scalar value of the resulting one-rune string. -/
def goRuneScalar (r : Int) : Int :=
  if (0 ≤ r ∧ r < 0xD800) ∨ (0xDFFF < r ∧ r ≤ 0x10FFFF) then r else 0xFFFD

/-- `formatAmount`: `string(rune(int(amount * 100)))`, modelled as the
scalar value of the single rune of that string. -/
def formatAmount (amount : ℚ) : Int :=
  goRuneScalar (goRuneWrap (goTrunc (amount * 100)))

/-- The components of the grouping-key string
`dateStr + "_" + typeStr + "_" + formatAmount(amount)`. -/
structure MatchKey where
  dateStr : GoDate
  isDebitStr : Bool
  amountStr : Int
deriving DecidableEq

/-- `ExactMatcher.generateKey`. -/
def generateKey (txn : Transaction) : MatchKey :=
  { dateStr := txn.transactionDate
    isDebitStr := IsDebit txn
    amountStr := formatAmount (AbsAmount txn) }

/-- `isSameDay`: compares the `(year, month, day)` triples of `Time.Date()`. -/
def isSameDay (t1 t2 : GoDate) : Bool :=
  decide (t1.year = t2.year) && decide (t1.month = t2.month) && decide (t1.day = t2.day)

/-- `amountsEqual`: `math.Abs(a1-a2) < epsilon` with `epsilon = 0.001`. -/
def amountsEqual (a1 a2 : ℚ) : Bool :=
  decide (|a1 - a2| < 1 / 1000)

/-- `ExactMatcher.isExactMatch`: same day, same polarity, amounts within epsilon. -/
def isExactMatch (sysTxn bankTxn : Transaction) : Bool :=
  isSameDay sysTxn.transactionDate bankTxn.transactionDate
    && (IsDebit sysTxn == IsDebit bankTxn)
    && amountsEqual (AbsAmount sysTxn) (AbsAmount bankTxn)

/-- `ExactMatcher.calculateDiscrepancy`: `math.Abs(sys.AbsAmount() - bank.AbsAmount())`. -/
def calculateDiscrepancy (sysTxn bankTxn : Transaction) : ℚ :=
  |AbsAmount sysTxn - AbsAmount bankTxn|

/-- `matcher.MatchPair`. -/
structure MatchPair where
  systemTransaction : Transaction
  bankTransaction : Transaction
  confidenceScore : ℚ
  amountDiscrepancy : ℚ
deriving DecidableEq

/-- `matcher.MatchResult`. -/
structure MatchResult where
  matched : List MatchPair
  unmatchedSystem : List Transaction
  unmatchedBank : List Transaction
  algorithmUsed : String
  matchRate : ℚ
  totalSystemTxns : Nat
  totalBankTxns : Nat
  totalMatched : Nat
  totalDiscrepancy : ℚ
deriving DecidableEq

/-- `NewMatchResult`. -/
def NewMatchResult (algorithmName : String) : MatchResult :=
  { matched := []
    unmatchedSystem := []
    unmatchedBank := []
    algorithmUsed := algorithmName
    matchRate := 0
    totalSystemTxns := 0
    totalBankTxns := 0
    totalMatched := 0
    totalDiscrepancy := 0 }

/-- `CalculateMatchRate`. -/
def CalculateMatchRate (totalMatched totalSystem totalBank : Nat) : ℚ :=
  if totalSystem = 0 ∧ totalBank = 0 then 100
  else ((totalMatched * 2 : Nat) : ℚ) / ((totalSystem + totalBank : Nat) : ℚ) * 100

/-- `MatchResult.Finalize`. -/
def Finalize (mr : MatchResult) : MatchResult :=
  { mr with
    totalSystemTxns := mr.matched.length + mr.unmatchedSystem.length
    totalBankTxns := mr.matched.length + mr.unmatchedBank.length
    totalMatched := mr.matched.length
    matchRate := CalculateMatchRate mr.matched.length
      (mr.matched.length + mr.unmatchedSystem.length)
      (mr.matched.length + mr.unmatchedBank.length)
    totalDiscrepancy :=
      (mr.matched.map (fun p => p.amountDiscrepancy)).sum
        + (mr.unmatchedSystem.map AbsAmount).sum
        + (mr.unmatchedBank.map AbsAmount).sum }

/-- The bucket `bankTxnMap[key]`: the bank transactions with that key,
in input order (the Go map is built by in-order append). -/
def bucket (bankTxns : List Transaction) (key : MatchKey) : List Transaction :=
  bankTxns.filter (fun b => decide (generateKey b = key))

/-- The `availableCandidates` slice: bucket members whose ID is not in
the `matchedBankTxns` consumed-set. -/
def availableCandidates (consumed : List String) (candidates : List Transaction) :
    List Transaction :=
  candidates.filter (fun b => decide (b.id ∉ consumed))

/-- The loop state of `ExactMatcher.Match`: accumulated pairs, unmatched
system transactions, and the `matchedBankTxns` consumed-ID set. -/
structure MatchState where
  matched : List MatchPair
  unmatchedSystem : List Transaction
  consumed : List String
deriving DecidableEq

/-- One iteration of the `for _, sysTxn := range systemTxns` loop of
`ExactMatcher.Match` (the Go locals `candidates` and `availableCandidates`
are written out in place; the inner `for ... break` over the available
candidates, which selects the first candidate passing `isExactMatch`, is
`List.find?`). -/
def processSystemTxn (bankTxns : List Transaction) (st : MatchState)
    (sysTxn : Transaction) : MatchState :=
  if (bucket bankTxns (generateKey sysTxn)).length = 0 then
    { st with unmatchedSystem := st.unmatchedSystem ++ [sysTxn] }
  else if 1 < (availableCandidates st.consumed
      (bucket bankTxns (generateKey sysTxn))).length then
    { st with unmatchedSystem := st.unmatchedSystem ++ [sysTxn] }
  else
    match (availableCandidates st.consumed
        (bucket bankTxns (generateKey sysTxn))).find?
        (fun b => isExactMatch sysTxn b) with
    | some bankTxn =>
        { matched := st.matched ++
            [{ systemTransaction := sysTxn
               bankTransaction := bankTxn
               confidenceScore := 100
               amountDiscrepancy := calculateDiscrepancy sysTxn bankTxn }]
          unmatchedSystem := st.unmatchedSystem
          consumed := st.consumed ++ [bankTxn.id] }
    | none =>
        { st with unmatchedSystem := st.unmatchedSystem ++ [sysTxn] }

/-- The empty state at the start of the system-transaction loop. -/
def initialState : MatchState :=
  { matched := [], unmatchedSystem := [], consumed := [] }

/-- The whole `for _, sysTxn := range systemTxns` loop. -/
def runSystemPass (systemTxns bankTxns : List Transaction) : MatchState :=
  systemTxns.foldl (processSystemTxn bankTxns) initialState

/-- `ExactMatcher.Match` (its `error` result is always `nil`): run the
system pass, collect unconsumed bank transactions, finalize statistics. -/
def Match (systemTxns bankTxns : List Transaction) : MatchResult :=
  Finalize
    { NewMatchResult "exact" with
      matched := (runSystemPass systemTxns bankTxns).matched
      unmatchedSystem := (runSystemPass systemTxns bankTxns).unmatchedSystem
      unmatchedBank := bankTxns.filter
        (fun b => decide (b.id ∉ (runSystemPass systemTxns bankTxns).consumed)) }

/-- Invariant of the system-transaction loop: the consumed-ID set is
exactly the list of bank IDs of the collected pairs (in order), it has no
duplicates, every consumed ID is the ID of some input bank transaction,
and every collected pair passed `isExactMatch` and carries confidence 100
and the computed discrepancy. -/
def StateInv (bankTxns : List Transaction) (st : MatchState) : Prop :=
  st.consumed = st.matched.map (fun p => p.bankTransaction.id)
    ∧ st.consumed.Nodup
    ∧ (∀ c ∈ st.consumed, c ∈ bankTxns.map (fun b => b.id))
    ∧ (∀ p ∈ st.matched,
        isExactMatch p.systemTransaction p.bankTransaction = true
          ∧ p.confidenceScore = 100
          ∧ p.amountDiscrepancy
            = calculateDiscrepancy p.systemTransaction p.bankTransaction)

/-! ### Concrete scenario data

Fixed transactions used by the witnesses and counterexamples.  All
amounts are dyadic rationals (or integers) that `float64` represents and
computes exactly, so the Go program agrees with the model on them. -/

/-- Calendar date 2024-03-15 used throughout the concrete scenarios. -/
def dW : GoDate := ⟨2024, 3, 15⟩

/-- System transaction: DEBIT of 150 on `dW`. -/
def sW : Transaction := ⟨"SYS001", dW, 150, TransactionTypeDebit⟩

/-- Bank transaction matching `sW`: DEBIT of -150 (bank sign convention). -/
def bW : Transaction := ⟨"BANK001", dW, -150, TransactionTypeDebit⟩

/-- The pair produced by matching `sW` against `bW`. -/
def pW : MatchPair := ⟨sW, bW, 100, 0⟩

/-- A second system transaction competing with `sW` for `bW`. -/
def sX : Transaction := ⟨"SYS002", dW, 150, TransactionTypeDebit⟩

/-- The pair produced when `sX` wins `bW` instead. -/
def pX : MatchPair := ⟨sX, bW, 100, 0⟩

/-- A second bank transaction with the same grouping key as `bW`. -/
def bY : Transaction := ⟨"BANK002", dW, -150, TransactionTypeDebit⟩

/-- Bank transaction of 20000.00: `int(20000*100) = 2000000` exceeds the
maximal Unicode scalar `0x10FFFF`, so its key rune is `U+FFFD`. -/
def b3a : Transaction := ⟨"BANK101", dW, 20000, TransactionTypeDebit⟩

/-- Bank transaction of 30000.00, whose key rune is also `U+FFFD`. -/
def b3b : Transaction := ⟨"BANK102", dW, 30000, TransactionTypeDebit⟩

/-- System transaction of 1.5 (exactly representable in `float64`). -/
def s4 : Transaction := ⟨"SYS401", dW, 3/2, TransactionTypeDebit⟩

/-- Bank transaction of -(3073/2048) = -1.50048828125: same cent bucket as
1.5, within the 0.001 epsilon, but not equal to 1.5. -/
def b4 : Transaction := ⟨"BANK401", dW, -(3073/2048), TransactionTypeDebit⟩

/-- The pair produced by matching `s4` against `b4`: discrepancy 1/2048. -/
def p4 : MatchPair := ⟨s4, b4, 100, 1/2048⟩

/-- A zero-amount DEBIT transaction. -/
def tZ : Transaction := ⟨"TXN501", dW, 0, TransactionTypeDebit⟩

/-- A positive-amount DEBIT transaction. -/
def tP : Transaction := ⟨"TXN502", dW, 5, TransactionTypeDebit⟩

/-! ### Basic facts about the loop body -/

/-- The `matched` partition of the result is exactly the pairs collected by
the system pass (`Finalize` only fills in statistics). -/
theorem Match_matched (systemTxns bankTxns : List Transaction) :
    (Match systemTxns bankTxns).matched = (runSystemPass systemTxns bankTxns).matched :=
  rfl

/-- The `unmatchedSystem` partition is the one collected by the system pass. -/
theorem Match_unmatchedSystem (systemTxns bankTxns : List Transaction) :
    (Match systemTxns bankTxns).unmatchedSystem
      = (runSystemPass systemTxns bankTxns).unmatchedSystem :=
  rfl

/-- The `unmatchedBank` partition is the set of bank transactions whose ID
was never consumed. -/
theorem Match_unmatchedBank (systemTxns bankTxns : List Transaction) :
    (Match systemTxns bankTxns).unmatchedBank
      = bankTxns.filter
          (fun b => decide (b.id ∉ (runSystemPass systemTxns bankTxns).consumed)) :=
  rfl

/-- The finalized match rate, written out. -/
theorem Match_matchRate (systemTxns bankTxns : List Transaction) :
    (Match systemTxns bankTxns).matchRate
      = CalculateMatchRate (Match systemTxns bankTxns).matched.length
          ((Match systemTxns bankTxns).matched.length
            + (Match systemTxns bankTxns).unmatchedSystem.length)
          ((Match systemTxns bankTxns).matched.length
            + (Match systemTxns bankTxns).unmatchedBank.length) :=
  rfl

/-- The finalized totals, written out. -/
theorem Match_totals (systemTxns bankTxns : List Transaction) :
    (Match systemTxns bankTxns).totalSystemTxns
        = (Match systemTxns bankTxns).matched.length
          + (Match systemTxns bankTxns).unmatchedSystem.length
      ∧ (Match systemTxns bankTxns).totalBankTxns
        = (Match systemTxns bankTxns).matched.length
          + (Match systemTxns bankTxns).unmatchedBank.length
      ∧ (Match systemTxns bankTxns).totalMatched
        = (Match systemTxns bankTxns).matched.length :=
  ⟨rfl, rfl, rfl⟩

/-- Every loop iteration either appends the system transaction to
`unmatchedSystem` leaving `matched` and `consumed` untouched, or appends
one `MatchPair` built from an available, exactly-matching candidate and
consumes that candidate's ID. -/
theorem processSystemTxn_cases (bankTxns : List Transaction) (st : MatchState)
    (s : Transaction) :
    processSystemTxn bankTxns st s
        = { st with unmatchedSystem := st.unmatchedSystem ++ [s] }
      ∨ ∃ b, b ∈ availableCandidates st.consumed (bucket bankTxns (generateKey s))
          ∧ isExactMatch s b = true
          ∧ processSystemTxn bankTxns st s
            = { matched := st.matched ++
                  [{ systemTransaction := s
                     bankTransaction := b
                     confidenceScore := 100
                     amountDiscrepancy := calculateDiscrepancy s b }]
                unmatchedSystem := st.unmatchedSystem
                consumed := st.consumed ++ [b.id] } := by
  unfold processSystemTxn
  by_cases h0 : (bucket bankTxns (generateKey s)).length = 0
  · left
    simp [h0]
  · by_cases h1 :
      1 < (availableCandidates st.consumed (bucket bankTxns (generateKey s))).length
    · left
      simp [h0, h1]
    · cases hf : (availableCandidates st.consumed
          (bucket bankTxns (generateKey s))).find? (fun b => isExactMatch s b) with
      | none =>
          left
          simp [h0, h1, hf]
      | some b =>
          right
          refine ⟨b, List.mem_of_find?_eq_some hf, List.find?_some hf, ?_⟩
          simp [h0, h1, hf]

/-- A member of the available-candidate list is a bucket member whose ID is
not yet consumed. -/
theorem mem_availableCandidates {consumed : List String}
    {candidates : List Transaction} {b : Transaction}
    (h : b ∈ availableCandidates consumed candidates) :
    b ∈ candidates ∧ b.id ∉ consumed := by
  unfold availableCandidates at h
  refine ⟨List.mem_of_mem_filter h, ?_⟩
  have := List.of_mem_filter h
  simpa using this

/-- A bucket member is an input bank transaction with the bucket's key. -/
theorem mem_bucket {bankTxns : List Transaction} {key : MatchKey} {b : Transaction}
    (h : b ∈ bucket bankTxns key) : b ∈ bankTxns ∧ generateKey b = key := by
  unfold bucket at h
  refine ⟨List.mem_of_mem_filter h, ?_⟩
  have := List.of_mem_filter h
  simpa using this

/-! ### Loop invariants of the system pass -/

theorem stateInv_initial (bankTxns : List Transaction) :
    StateInv bankTxns initialState := by
  refine ⟨rfl, List.nodup_nil, ?_, ?_⟩ <;> intro c hc <;> simp [initialState] at hc

theorem stateInv_step (bankTxns : List Transaction) (st : MatchState)
    (s : Transaction) (h : StateInv bankTxns st) :
    StateInv bankTxns (processSystemTxn bankTxns st s) := by
  obtain ⟨hmap, hnd, hsub, hpairs⟩ := h
  rcases processSystemTxn_cases bankTxns st s with hc | ⟨b, hbav, hbex, hc⟩
  · rw [hc]
    exact ⟨hmap, hnd, hsub, hpairs⟩
  · obtain ⟨hbbucket, hbid⟩ := mem_availableCandidates hbav
    obtain ⟨hbbank, _⟩ := mem_bucket hbbucket
    rw [hc]
    refine ⟨?_, ?_, ?_, ?_⟩
    · simp [hmap]
    · simp [List.nodup_append, hnd, List.disjoint_singleton, hbid]
    · intro c hcmem
      rcases List.mem_append.mp hcmem with hcold | hcnew
      · exact hsub c hcold
      · have : c = b.id := by simpa using hcnew
        subst this
        exact List.mem_map.mpr ⟨b, hbbank, rfl⟩
    · intro p hpmem
      rcases List.mem_append.mp hpmem with hpold | hpnew
      · exact hpairs p hpold
      · have hp := List.mem_singleton.mp hpnew
        subst hp
        exact ⟨hbex, rfl, rfl⟩

theorem stateInv_foldl (bankTxns : List Transaction) :
    ∀ (systemTxns : List Transaction) (st : MatchState), StateInv bankTxns st →
      StateInv bankTxns (systemTxns.foldl (processSystemTxn bankTxns) st) := by
  intro systemTxns
  induction systemTxns with
  | nil => intro st h; simpa using h
  | cons s rest ih =>
      intro st h
      rw [List.foldl_cons]
      exact ih _ (stateInv_step bankTxns st s h)

theorem stateInv_run (systemTxns bankTxns : List Transaction) :
    StateInv bankTxns (runSystemPass systemTxns bankTxns) :=
  stateInv_foldl bankTxns systemTxns initialState (stateInv_initial bankTxns)

/-- Each loop iteration grows `|matched| + |unmatchedSystem|` by exactly one. -/
theorem foldl_partition_count (bankTxns : List Transaction) :
    ∀ (systemTxns : List Transaction) (st : MatchState),
      (systemTxns.foldl (processSystemTxn bankTxns) st).matched.length
          + (systemTxns.foldl (processSystemTxn bankTxns) st).unmatchedSystem.length
        = st.matched.length + st.unmatchedSystem.length + systemTxns.length := by
  intro systemTxns
  induction systemTxns with
  | nil => intro st; simp
  | cons s rest ih =>
      intro st
      rw [List.foldl_cons, ih]
      rcases processSystemTxn_cases bankTxns st s with hc | ⟨b, _, _, hc⟩ <;>
        rw [hc] <;> simp <;> omega

/-! ### Counting helpers -/

/-- A filter and its complement partition a list's length. -/
theorem length_filter_partition {α : Type} (l : List α) (p : α → Bool) :
    (l.filter p).length + (l.filter (fun a => !(p a))).length = l.length := by
  induction l with
  | nil => simp
  | cons a t ih =>
      by_cases h : p a = true <;> simp [List.filter_cons, h] <;> omega

/-- If a list of transactions has pairwise-distinct IDs and `consumed` is a
duplicate-free list of IDs all drawn from it, then exactly
`consumed.length` of its members have a consumed ID. -/
theorem length_filter_mem_consumed :
    ∀ (bankTxns : List Transaction) (consumed : List String),
      (bankTxns.map (fun b => b.id)).Nodup → consumed.Nodup →
      (∀ c ∈ consumed, c ∈ bankTxns.map (fun b => b.id)) →
      (bankTxns.filter (fun b => decide (b.id ∈ consumed))).length
        = consumed.length := by
  intro bankTxns
  induction bankTxns with
  | nil =>
      intro consumed _ _ hsub
      cases consumed with
      | nil => simp
      | cons c cs => exact absurd (hsub c (List.mem_cons_self c cs)) (by simp)
  | cons b bs ih =>
      intro consumed hids hnd hsub
      have hbids : b.id ∉ bs.map (fun x => x.id) := by
        have := hids
        simp only [List.map_cons, List.nodup_cons] at this
        exact this.1
      have hbsnodup : (bs.map (fun x => x.id)).Nodup := by
        have := hids
        simp only [List.map_cons, List.nodup_cons] at this
        exact this.2
      by_cases hb : b.id ∈ consumed
      · have hrw : bs.filter (fun x => decide (x.id ∈ consumed))
            = bs.filter (fun x => decide (x.id ∈ consumed.erase b.id)) := by
          apply List.filter_congr
          intro x hx
          have hxne : x.id ≠ b.id := by
            intro hcontra
            exact hbids (hcontra ▸ List.mem_map.mpr ⟨x, hx, rfl⟩)
          simp [List.Nodup.mem_erase_iff hnd, hxne]
        have hesub : ∀ c ∈ consumed.erase b.id, c ∈ bs.map (fun x => x.id) := by
          intro c hc
          rw [List.Nodup.mem_erase_iff hnd] at hc
          have := hsub c hc.2
          simp only [List.map_cons, List.mem_cons] at this
          rcases this with h | h
          · exact absurd h hc.1
          · exact h
        have := ih (consumed.erase b.id) hbsnodup (hnd.erase b.id) hesub
        have hlen := List.length_erase_of_mem hb
        have hpos : 1 ≤ consumed.length := List.length_pos.mpr
          (List.ne_nil_of_mem hb)
        have hgoal : ((b :: bs).filter (fun x => decide (x.id ∈ consumed))).length
            = (bs.filter (fun x => decide (x.id ∈ consumed.erase b.id))).length + 1 := by
          simp [List.filter_cons, hb, hrw]
        rw [hgoal, this, hlen]
        omega
      · have hesub : ∀ c ∈ consumed, c ∈ bs.map (fun x => x.id) := by
          intro c hc
          have := hsub c hc
          simp only [List.map_cons, List.mem_cons] at this
          rcases this with h | h
          · exact absurd (h ▸ hc) hb
          · exact h
        have := ih consumed hbsnodup hnd hesub
        have hgoal : (b :: bs).filter (fun x => decide (x.id ∈ consumed))
            = bs.filter (fun x => decide (x.id ∈ consumed)) := by
          simp [List.filter_cons, hb]
        rw [hgoal, this]

/-- In a list whose `f`-image has no duplicates, at most one member maps
to any given value. -/
theorem length_filter_eq_le_one {α β : Type} [DecidableEq β] (f : α → β) :
    ∀ (l : List α), (l.map f).Nodup →
      ∀ y : β, (l.filter (fun a => decide (f a = y))).length ≤ 1 := by
  intro l
  induction l with
  | nil => intro _ y; simp
  | cons a t ih =>
      intro hnd y
      simp only [List.map_cons, List.nodup_cons] at hnd
      by_cases ha : f a = y
      · have : t.filter (fun x => decide (f x = y)) = [] := by
          rw [List.filter_eq_nil_iff]
          intro x hx
          simp only [decide_eq_true_eq]
          intro hcontra
          exact hnd.1 (by rw [ha]; exact hcontra ▸ List.mem_map.mpr ⟨x, hx, rfl⟩)
        simp [List.filter_cons, ha, this]
      · have := ih hnd.2 y
        have hgoal : (a :: t).filter (fun x => decide (f x = y))
            = t.filter (fun x => decide (f x = y)) := by
          simp [List.filter_cons, ha]
        rw [hgoal]
        exact this

/-! ### Branch lemmas for the loop body -/

/-- A list containing two distinct elements has length at least two. -/
theorem two_le_length_of_mem {α : Type} {l : List α} {a b : α}
    (ha : a ∈ l) (hb : b ∈ l) (hne : a ≠ b) : 2 ≤ l.length := by
  cases l with
  | nil => simp at ha
  | cons x t =>
      cases t with
      | nil =>
          simp only [List.mem_singleton] at ha hb
          exact absurd (ha.trans hb.symm) hne
      | cons y u => simp only [List.length_cons]; omega

/-- Agreement on calendar date, polarity and absolute amount forces the
same grouping key. -/
theorem generateKey_eq_of_triple {b s : Transaction}
    (hdate : b.transactionDate = s.transactionDate)
    (hdeb : IsDebit b = IsDebit s) (hamt : AbsAmount b = AbsAmount s) :
    generateKey b = generateKey s := by
  unfold generateKey
  rw [hdate, hdeb, hamt]

/-- With two or more available candidates the iteration marks the system
transaction unmatched and consumes nothing. -/
theorem processSystemTxn_ambiguous (bankTxns : List Transaction)
    (st : MatchState) (s : Transaction)
    (h2 : 1 < (availableCandidates st.consumed
      (bucket bankTxns (generateKey s))).length) :
    processSystemTxn bankTxns st s
      = { st with unmatchedSystem := st.unmatchedSystem ++ [s] } := by
  unfold processSystemTxn
  have hle : (availableCandidates st.consumed
      (bucket bankTxns (generateKey s))).length
      ≤ (bucket bankTxns (generateKey s)).length :=
    List.length_filter_le _ _
  have h0 : ¬(bucket bankTxns (generateKey s)).length = 0 := by omega
  simp [h0, h2]

/-- With an empty bucket the iteration marks the system transaction
unmatched. -/
theorem processSystemTxn_noBucket (bankTxns : List Transaction)
    (st : MatchState) (s : Transaction)
    (h0 : (bucket bankTxns (generateKey s)).length = 0) :
    processSystemTxn bankTxns st s
      = { st with unmatchedSystem := st.unmatchedSystem ++ [s] } := by
  unfold processSystemTxn
  simp [h0]

/-- With a nonempty bucket but no available candidate the iteration marks
the system transaction unmatched. -/
theorem processSystemTxn_exhausted (bankTxns : List Transaction)
    (st : MatchState) (s : Transaction)
    (h0 : ¬(bucket bankTxns (generateKey s)).length = 0)
    (hav : availableCandidates st.consumed (bucket bankTxns (generateKey s)) = []) :
    processSystemTxn bankTxns st s
      = { st with unmatchedSystem := st.unmatchedSystem ++ [s] } := by
  unfold processSystemTxn
  simp [h0, hav]

/-- With exactly one available candidate that passes `isExactMatch`, the
iteration emits the pair and consumes the candidate. -/
theorem processSystemTxn_single_match (bankTxns : List Transaction)
    (st : MatchState) (s b : Transaction)
    (hav : availableCandidates st.consumed (bucket bankTxns (generateKey s)) = [b])
    (hex : isExactMatch s b = true) :
    processSystemTxn bankTxns st s
      = { matched := st.matched ++
            [{ systemTransaction := s
               bankTransaction := b
               confidenceScore := 100
               amountDiscrepancy := calculateDiscrepancy s b }]
          unmatchedSystem := st.unmatchedSystem
          consumed := st.consumed ++ [b.id] } := by
  have hbmem : b ∈ bucket bankTxns (generateKey s) :=
    (mem_availableCandidates (hav ▸ List.mem_singleton_self b)).1
  have h0 : ¬(bucket bankTxns (generateKey s)).length = 0 := by
    intro hc
    rw [List.length_eq_zero] at hc
    rw [hc] at hbmem
    simp at hbmem
  unfold processSystemTxn
  simp [h0, hav, List.find?_cons, hex]

/-- With exactly one available candidate that fails `isExactMatch`, the
iteration marks the system transaction unmatched and consumes nothing. -/
theorem processSystemTxn_single_mismatch (bankTxns : List Transaction)
    (st : MatchState) (s b : Transaction)
    (hav : availableCandidates st.consumed (bucket bankTxns (generateKey s)) = [b])
    (hex : isExactMatch s b = false) :
    processSystemTxn bankTxns st s
      = { st with unmatchedSystem := st.unmatchedSystem ++ [s] } := by
  have hbmem : b ∈ bucket bankTxns (generateKey s) :=
    (mem_availableCandidates (hav ▸ List.mem_singleton_self b)).1
  have h0 : ¬(bucket bankTxns (generateKey s)).length = 0 := by
    intro hc
    rw [List.length_eq_zero] at hc
    rw [hc] at hbmem
    simp at hbmem
  unfold processSystemTxn
  simp [h0, hav, List.find?_cons, hex]

/-! ### Claim theorems -/

/-- C1: for every pair of input sequences whose bank transactions carry
pairwise-distinct IDs (the data model's uniqueness invariant for a source
collection), `ExactMatcher.Match` partitions the inputs completely:
`|Matched| + |UnmatchedSystem| = |systemTxns|` and
`|Matched| + |UnmatchedBank| = |bankTxns|`; no transaction is dropped or
duplicated. -/
theorem C1_partition_completeness (systemTxns bankTxns : List Transaction)
    (h : (bankTxns.map (fun b => b.id)).Nodup) :
    (Match systemTxns bankTxns).matched.length
        + (Match systemTxns bankTxns).unmatchedSystem.length = systemTxns.length
      ∧ (Match systemTxns bankTxns).matched.length
        + (Match systemTxns bankTxns).unmatchedBank.length = bankTxns.length := by
  obtain ⟨hmap, hnd, hsub, _⟩ := stateInv_run systemTxns bankTxns
  constructor
  · rw [Match_matched, Match_unmatchedSystem]
    have := foldl_partition_count bankTxns systemTxns initialState
    unfold runSystemPass
    simpa [initialState] using this
  · rw [Match_matched, Match_unmatchedBank]
    have hclen : (runSystemPass systemTxns bankTxns).consumed.length
        = (runSystemPass systemTxns bankTxns).matched.length := by
      rw [hmap]; simp
    have hpart := length_filter_partition bankTxns
      (fun b => decide (b.id ∈ (runSystemPass systemTxns bankTxns).consumed))
    have hcount := length_filter_mem_consumed bankTxns
      (runSystemPass systemTxns bankTxns).consumed h hnd hsub
    have hfilt : bankTxns.filter
          (fun b => decide (b.id ∉ (runSystemPass systemTxns bankTxns).consumed))
        = bankTxns.filter
          (fun b => !(decide (b.id ∈ (runSystemPass systemTxns bankTxns).consumed))) := by
      apply List.filter_congr
      intro x _
      simp
    rw [hfilt]
    omega

/-- C2: within a run of `Match`, when a system transaction's key bucket
holds two (or more) bank transactions sharing its calendar date, polarity
and absolute amount, none of them consumed so far, the iteration puts the
system transaction in `unmatchedSystem` and consumes none of the
candidates; and any bank transaction never claimed by a pair surfaces in
`unmatchedBank`. -/
theorem C2_ambiguity_conservatism :
    (∀ (bankTxns : List Transaction) (st : MatchState) (s b1 b2 : Transaction),
      b1 ∈ bankTxns → b2 ∈ bankTxns → b1.id ≠ b2.id →
      b1.transactionDate = s.transactionDate → IsDebit b1 = IsDebit s →
      AbsAmount b1 = AbsAmount s →
      b2.transactionDate = s.transactionDate → IsDebit b2 = IsDebit s →
      AbsAmount b2 = AbsAmount s →
      b1.id ∉ st.consumed → b2.id ∉ st.consumed →
      processSystemTxn bankTxns st s
        = { st with unmatchedSystem := st.unmatchedSystem ++ [s] })
    ∧ (∀ (systemTxns bankTxns : List Transaction) (b : Transaction),
        b ∈ bankTxns →
        (∀ p ∈ (Match systemTxns bankTxns).matched, p.bankTransaction.id ≠ b.id) →
        b ∈ (Match systemTxns bankTxns).unmatchedBank) := by
  constructor
  · intro bankTxns st s b1 b2 hb1 hb2 hne hd1 hp1 ha1 hd2 hp2 ha2 hc1 hc2
    have hk1 : generateKey b1 = generateKey s := generateKey_eq_of_triple hd1 hp1 ha1
    have hk2 : generateKey b2 = generateKey s := generateKey_eq_of_triple hd2 hp2 ha2
    have hav1 : b1 ∈ availableCandidates st.consumed
        (bucket bankTxns (generateKey s)) := by
      unfold availableCandidates bucket
      exact List.mem_filter.mpr
        ⟨List.mem_filter.mpr ⟨hb1, by simp [hk1]⟩, by simp [hc1]⟩
    have hav2 : b2 ∈ availableCandidates st.consumed
        (bucket bankTxns (generateKey s)) := by
      unfold availableCandidates bucket
      exact List.mem_filter.mpr
        ⟨List.mem_filter.mpr ⟨hb2, by simp [hk2]⟩, by simp [hc2]⟩
    have hbne : b1 ≠ b2 := fun hcontra => hne (by rw [hcontra])
    exact processSystemTxn_ambiguous bankTxns st s
      (two_le_length_of_mem hav1 hav2 hbne)
  · intro systemTxns bankTxns b hb hnotclaimed
    obtain ⟨hmap, _, _, _⟩ := stateInv_run systemTxns bankTxns
    rw [Match_unmatchedBank]
    refine List.mem_filter.mpr ⟨hb, ?_⟩
    simp only [decide_eq_true_eq]
    intro hcontra
    rw [hmap] at hcontra
    obtain ⟨p, hpmem, hpid⟩ := List.mem_map.mp hcontra
    exact hnotclaimed p (by rw [← Match_matched] at hpmem; exact hpmem) hpid

/-- C7: each bank transaction ID appears in at most one `MatchPair` of the
result: once consumed, a bank transaction cannot be paired again. -/
theorem C7_no_duplicate_consumption (systemTxns bankTxns : List Transaction)
    (bid : String) :
    ((Match systemTxns bankTxns).matched.filter
        (fun p => decide (p.bankTransaction.id = bid))).length ≤ 1 := by
  obtain ⟨hmap, hnd, _, _⟩ := stateInv_run systemTxns bankTxns
  rw [Match_matched]
  exact length_filter_eq_le_one (fun p : MatchPair => p.bankTransaction.id) _
    (hmap ▸ hnd) bid

/-- C10: every emitted `MatchPair` satisfies the exact-match predicate —
same calendar day, same debit polarity, absolute amounts within `0.001` —
and hence its `AmountDiscrepancy` is strictly below `0.001`. -/
theorem C10_matched_pairs_exact (systemTxns bankTxns : List Transaction)
    (p : MatchPair) (hp : p ∈ (Match systemTxns bankTxns).matched) :
    isSameDay p.systemTransaction.transactionDate p.bankTransaction.transactionDate
        = true
      ∧ IsDebit p.systemTransaction = IsDebit p.bankTransaction
      ∧ |AbsAmount p.systemTransaction - AbsAmount p.bankTransaction| < 1 / 1000
      ∧ p.amountDiscrepancy < 1 / 1000 := by
  obtain ⟨_, _, _, hpairs⟩ := stateInv_run systemTxns bankTxns
  rw [Match_matched] at hp
  obtain ⟨hex, _, hdisc⟩ := hpairs p hp
  unfold isExactMatch at hex
  simp only [Bool.and_eq_true, beq_iff_eq] at hex
  obtain ⟨⟨hday, hdeb⟩, ham⟩ := hex
  have hamq : |AbsAmount p.systemTransaction - AbsAmount p.bankTransaction|
      < 1 / 1000 := by
    unfold amountsEqual at ham
    simpa using ham
  refine ⟨hday, hdeb, hamq, ?_⟩
  rw [hdisc]
  unfold calculateDiscrepancy
  exact hamq

/-- C4 (amended): every emitted `MatchPair` has `ConfidenceScore = 100`
and a non-negative `AmountDiscrepancy` strictly below the epsilon `0.001`
(but, because the grouping key truncates amounts to whole cents while the
match predicate allows differences up to `0.001`, the discrepancy is not
always exactly `0`). -/
theorem C4_confidence_and_discrepancy (systemTxns bankTxns : List Transaction)
    (p : MatchPair) (hp : p ∈ (Match systemTxns bankTxns).matched) :
    p.confidenceScore = 100
      ∧ 0 ≤ p.amountDiscrepancy
      ∧ p.amountDiscrepancy < 1 / 1000 := by
  obtain ⟨_, _, _, hpairs⟩ := stateInv_run systemTxns bankTxns
  rw [Match_matched] at hp
  obtain ⟨hex, hconf, hdisc⟩ := hpairs p hp
  unfold isExactMatch at hex
  simp only [Bool.and_eq_true, beq_iff_eq] at hex
  refine ⟨hconf, ?_, ?_⟩
  · rw [hdisc]
    unfold calculateDiscrepancy
    exact abs_nonneg _
  · rw [hdisc]
    unfold calculateDiscrepancy
    have := hex.2
    unfold amountsEqual at this
    simpa using this

/-- The two transaction-type constants are distinct strings. -/
theorem debit_ne_credit : TransactionTypeDebit ≠ TransactionTypeCredit := by
  decide

/-- C5 (amended): after `NormalizeAmount`, the amount is non-positive for
DEBIT and non-negative for CREDIT, regardless of the incoming sign.  (A
zero-amount DEBIT stays at `0`, so "negative" in the strict sense fails;
see the counterexample.) -/
theorem C5_sign_after_normalization (t : Transaction) :
    (t.type = TransactionTypeDebit → (NormalizeAmount t).amount ≤ 0)
      ∧ (t.type = TransactionTypeCredit → 0 ≤ (NormalizeAmount t).amount) := by
  constructor
  · intro hd
    by_cases hpos : 0 < t.amount
    · have hN : NormalizeAmount t = { t with amount := -t.amount } := by
        unfold NormalizeAmount
        rw [if_pos ⟨hd, hpos⟩]
      rw [hN]
      simp only []
      linarith
    · have h1 : ¬(t.type = TransactionTypeDebit ∧ 0 < t.amount) :=
        fun hc => hpos hc.2
      have h2 : ¬(t.type = TransactionTypeCredit ∧ t.amount < 0) :=
        fun hc => debit_ne_credit (hd ▸ hc.1)
      have hN : NormalizeAmount t = t := by
        unfold NormalizeAmount
        rw [if_neg h1, if_neg h2]
      rw [hN]
      linarith [not_lt.mp hpos]
  · intro hcred
    by_cases hneg : t.amount < 0
    · have h1 : ¬(t.type = TransactionTypeDebit ∧ 0 < t.amount) :=
        fun hc => debit_ne_credit (hc.1 ▸ hcred)
      have hN : NormalizeAmount t = { t with amount := -t.amount } := by
        unfold NormalizeAmount
        rw [if_neg h1, if_pos ⟨hcred, hneg⟩]
      rw [hN]
      simp only []
      linarith
    · have h1 : ¬(t.type = TransactionTypeDebit ∧ 0 < t.amount) :=
        fun hc => debit_ne_credit (hc.1 ▸ hcred)
      have h2 : ¬(t.type = TransactionTypeCredit ∧ t.amount < 0) :=
        fun hc => hneg hc.2
      have hN : NormalizeAmount t = t := by
        unfold NormalizeAmount
        rw [if_neg h1, if_neg h2]
      rw [hN]
      exact not_lt.mp hneg

/-- C6: `NormalizeAmount` is idempotent on the amount field — normalizing
an already-normalized transaction leaves its amount unchanged. -/
theorem C6_normalize_idempotent (t : Transaction) :
    (NormalizeAmount (NormalizeAmount t)).amount = (NormalizeAmount t).amount := by
  by_cases h1 : t.type = TransactionTypeDebit ∧ 0 < t.amount
  · have hN : NormalizeAmount t = { t with amount := -t.amount } := by
      unfold NormalizeAmount
      rw [if_pos h1]
    have c1 : ¬({ t with amount := -t.amount }.type = TransactionTypeDebit
        ∧ 0 < { t with amount := -t.amount }.amount) := by
      intro hc
      have := hc.2
      simp only [] at this
      linarith [h1.2]
    have c2 : ¬({ t with amount := -t.amount }.type = TransactionTypeCredit
        ∧ { t with amount := -t.amount }.amount < 0) := by
      intro hc
      exact debit_ne_credit (h1.1 ▸ hc.1)
    rw [hN]
    unfold NormalizeAmount
    rw [if_neg c1, if_neg c2]
  · by_cases h2 : t.type = TransactionTypeCredit ∧ t.amount < 0
    · have hN : NormalizeAmount t = { t with amount := -t.amount } := by
        unfold NormalizeAmount
        rw [if_neg h1, if_pos h2]
      have c1 : ¬({ t with amount := -t.amount }.type = TransactionTypeDebit
          ∧ 0 < { t with amount := -t.amount }.amount) := by
        intro hc
        exact debit_ne_credit (hc.1 ▸ h2.1)
      have c2 : ¬({ t with amount := -t.amount }.type = TransactionTypeCredit
          ∧ { t with amount := -t.amount }.amount < 0) := by
        intro hc
        have := hc.2
        simp only [] at this
        linarith [h2.2]
      rw [hN]
      unfold NormalizeAmount
      rw [if_neg c1, if_neg c2]
    · have hN : NormalizeAmount t = t := by
        unfold NormalizeAmount
        rw [if_neg h1, if_neg h2]
      rw [hN, hN]

/-- C3 (amended): two bank transactions land in the same bucket exactly
when they agree on calendar date, polarity, and the *key image* of the
absolute amount (`string(rune(int(abs*100)))`); agreement on calendar
date, polarity and absolute amount still implies the same bucket (but not
conversely, because `formatAmount` collapses distinct amounts — see the
counterexample); and a bucket holding exactly one unconsumed candidate
that passes the exact-match predicate yields a match consuming exactly
that candidate. -/
theorem C3_bucketing_key :
    (∀ b1 b2 : Transaction,
      generateKey b1 = generateKey b2
        ↔ (b1.transactionDate = b2.transactionDate
            ∧ IsDebit b1 = IsDebit b2
            ∧ formatAmount (AbsAmount b1) = formatAmount (AbsAmount b2)))
    ∧ (∀ b1 b2 : Transaction,
        b1.transactionDate = b2.transactionDate → IsDebit b1 = IsDebit b2 →
        AbsAmount b1 = AbsAmount b2 → generateKey b1 = generateKey b2)
    ∧ (∀ (bankTxns : List Transaction) (st : MatchState) (s b : Transaction),
        availableCandidates st.consumed (bucket bankTxns (generateKey s)) = [b] →
        isExactMatch s b = true →
        processSystemTxn bankTxns st s
          = { matched := st.matched ++
                [{ systemTransaction := s
                   bankTransaction := b
                   confidenceScore := 100
                   amountDiscrepancy := calculateDiscrepancy s b }]
              unmatchedSystem := st.unmatchedSystem
              consumed := st.consumed ++ [b.id] }) := by
  refine ⟨?_, ?_, ?_⟩
  · intro b1 b2
    unfold generateKey
    constructor
    · intro h
      exact ⟨congrArg MatchKey.dateStr h, congrArg MatchKey.isDebitStr h,
        congrArg MatchKey.amountStr h⟩
    · intro ⟨h1, h2, h3⟩
      rw [h1, h2, h3]
  · intro b1 b2 h1 h2 h3
    exact generateKey_eq_of_triple h1 h2 h3
  · intro bankTxns st s b hav hex
    exact processSystemTxn_single_match bankTxns st s b hav hex

/-- The finalized total discrepancy, written out. -/
theorem Match_totalDiscrepancy (systemTxns bankTxns : List Transaction) :
    (Match systemTxns bankTxns).totalDiscrepancy
      = ((Match systemTxns bankTxns).matched.map (fun p => p.amountDiscrepancy)).sum
        + ((Match systemTxns bankTxns).unmatchedSystem.map AbsAmount).sum
        + ((Match systemTxns bankTxns).unmatchedBank.map AbsAmount).sum :=
  rfl

/-- C8: the finalized `MatchRate` is `100` when both totals are zero and
`2·|matched| / (totalSystemTxns + totalBankTxns) · 100` otherwise; in
particular matching two empty sequences yields rate `100` and three empty
partitions. -/
theorem C8_match_rate (systemTxns bankTxns : List Transaction) :
    ((Match systemTxns bankTxns).totalSystemTxns = 0
        ∧ (Match systemTxns bankTxns).totalBankTxns = 0
      → (Match systemTxns bankTxns).matchRate = 100)
    ∧ (¬((Match systemTxns bankTxns).totalSystemTxns = 0
          ∧ (Match systemTxns bankTxns).totalBankTxns = 0)
      → (Match systemTxns bankTxns).matchRate
          = 2 * ((Match systemTxns bankTxns).totalMatched : ℚ)
            / (((Match systemTxns bankTxns).totalSystemTxns : ℚ)
              + ((Match systemTxns bankTxns).totalBankTxns : ℚ)) * 100)
    ∧ ((Match [] []).matchRate = 100
      ∧ (Match [] []).matched = []
      ∧ (Match [] []).unmatchedSystem = []
      ∧ (Match [] []).unmatchedBank = []) := by
  obtain ⟨hts, htb, htm⟩ := Match_totals systemTxns bankTxns
  have hrate := Match_matchRate systemTxns bankTxns
  refine ⟨?_, ?_, ?_, rfl, rfl, rfl⟩
  · intro ⟨h1, h2⟩
    rw [hrate]
    unfold CalculateMatchRate
    rw [if_pos ⟨by omega, by omega⟩]
  · intro hne
    rw [hrate]
    unfold CalculateMatchRate
    rw [if_neg (by omega)]
    rw [htm, hts, htb]
    push_cast
    ring
  · show CalculateMatchRate 0 (0 + 0) (0 + 0) = 100
    unfold CalculateMatchRate
    rw [if_pos ⟨rfl, rfl⟩]

/-- A permutation between lists of length at most one forces equality. -/
theorem perm_eq_of_length_le_one {α : Type} {l l' : List α}
    (h : l.Perm l') (hle : l.length ≤ 1) : l = l' := by
  cases l with
  | nil => exact (List.Perm.eq_nil h.symm).symm
  | cons a t =>
      cases t with
      | nil => exact List.singleton_perm.mp h
      | cons b u => simp at hle

/-- Permuting the bank list does not change a loop iteration: the bucket
and available-candidate lists are permuted, the candidate counts agree,
and a unique available candidate is the same transaction. -/
theorem processSystemTxn_congr {bankTxns bankTxns' : List Transaction}
    (h : bankTxns.Perm bankTxns') (st : MatchState) (s : Transaction) :
    processSystemTxn bankTxns st s = processSystemTxn bankTxns' st s := by
  have hb : (bucket bankTxns (generateKey s)).Perm
      (bucket bankTxns' (generateKey s)) := h.filter _
  have ha : (availableCandidates st.consumed (bucket bankTxns (generateKey s))).Perm
      (availableCandidates st.consumed (bucket bankTxns' (generateKey s))) :=
    hb.filter _
  unfold processSystemTxn
  by_cases h0 : (bucket bankTxns' (generateKey s)).length = 0
  · have h0l : (bucket bankTxns (generateKey s)).length = 0 := by
      rw [hb.length_eq]; exact h0
    rw [if_pos h0l, if_pos h0]
  · have h0l : ¬(bucket bankTxns (generateKey s)).length = 0 := by
      rw [hb.length_eq]; exact h0
    by_cases h1 : 1 < (availableCandidates st.consumed
        (bucket bankTxns' (generateKey s))).length
    · have h1l : 1 < (availableCandidates st.consumed
          (bucket bankTxns (generateKey s))).length := by
        rw [ha.length_eq]; exact h1
      rw [if_neg h0l, if_neg h0, if_pos h1l, if_pos h1]
    · have h1l : ¬1 < (availableCandidates st.consumed
          (bucket bankTxns (generateKey s))).length := by
        rw [ha.length_eq]; exact h1
      have heq : availableCandidates st.consumed (bucket bankTxns (generateKey s))
          = availableCandidates st.consumed (bucket bankTxns' (generateKey s)) :=
        perm_eq_of_length_le_one ha (by omega)
      rw [if_neg h0l, if_neg h0, if_neg h1l, if_neg h1, heq]

/-- Permuting the bank list leaves the whole system pass unchanged. -/
theorem runSystemPass_congr {bankTxns bankTxns' : List Transaction}
    (h : bankTxns.Perm bankTxns') (systemTxns : List Transaction) :
    runSystemPass systemTxns bankTxns = runSystemPass systemTxns bankTxns' := by
  unfold runSystemPass
  have hfun : processSystemTxn bankTxns = processSystemTxn bankTxns' :=
    funext fun st => funext fun s => processSystemTxn_congr h st s
  rw [hfun]

/-- C9 (amended): the result of `Match` does not depend on the order of
`bankTxns`: permuting the bank list leaves `Matched`, `UnmatchedSystem`
and all scalar statistics unchanged, and permutes `UnmatchedBank`.  (The
result does depend on the order of `systemTxns`; see the
counterexample.) -/
theorem C9_bank_order_invariance (systemTxns bankTxns bankTxns' : List Transaction)
    (h : bankTxns.Perm bankTxns') :
    (Match systemTxns bankTxns).matched = (Match systemTxns bankTxns').matched
      ∧ (Match systemTxns bankTxns).unmatchedSystem
        = (Match systemTxns bankTxns').unmatchedSystem
      ∧ ((Match systemTxns bankTxns).unmatchedBank).Perm
        ((Match systemTxns bankTxns').unmatchedBank)
      ∧ (Match systemTxns bankTxns).matchRate
        = (Match systemTxns bankTxns').matchRate
      ∧ (Match systemTxns bankTxns).totalDiscrepancy
        = (Match systemTxns bankTxns').totalDiscrepancy := by
  have hrun := runSystemPass_congr h systemTxns
  have hm : (Match systemTxns bankTxns).matched
      = (Match systemTxns bankTxns').matched := by
    rw [Match_matched, Match_matched, hrun]
  have hus : (Match systemTxns bankTxns).unmatchedSystem
      = (Match systemTxns bankTxns').unmatchedSystem := by
    rw [Match_unmatchedSystem, Match_unmatchedSystem, hrun]
  have hub : ((Match systemTxns bankTxns).unmatchedBank).Perm
      ((Match systemTxns bankTxns').unmatchedBank) := by
    rw [Match_unmatchedBank, Match_unmatchedBank, hrun]
    exact h.filter _
  refine ⟨hm, hus, hub, ?_, ?_⟩
  · rw [Match_matchRate, Match_matchRate, hm, hus, hub.length_eq]
  · rw [Match_totalDiscrepancy, Match_totalDiscrepancy, hm, hus,
      List.Perm.sum_eq (hub.map AbsAmount)]


/-! ### Evaluation of the concrete scenarios -/

/-- Floor evaluation via its defining bounds. -/
theorem floor_eval {q : ℚ} {z : Int} (h1 : (z : ℚ) ≤ q) (h2 : q < z + 1) : ⌊q⌋ = z :=
  Int.floor_eq_iff.mpr ⟨h1, h2⟩

theorem isDebit_sW : IsDebit sW = true := by
  simp [IsDebit, sW, TransactionTypeDebit]

theorem abs_sW : AbsAmount sW = 150 := by
  norm_num [AbsAmount, sW]

theorem isDebit_bW : IsDebit bW = true := by
  simp [IsDebit, bW, TransactionTypeDebit]

theorem abs_bW : AbsAmount bW = 150 := by
  norm_num [AbsAmount, bW]

theorem fmt150 : formatAmount 150 = 15000 := by
  unfold formatAmount goTrunc goRuneWrap goRuneScalar
  have hnn : ¬((150 : ℚ) * 100 < 0) := by norm_num
  rw [if_neg hnn]
  have hfl : ⌊(150 : ℚ) * 100⌋ = 15000 := floor_eval (by norm_num) (by norm_num)
  rw [hfl]
  decide

theorem key_sW : generateKey sW = ⟨dW, true, 15000⟩ := by
  unfold generateKey
  rw [isDebit_sW, abs_sW, fmt150]
  rfl

theorem key_bW : generateKey bW = ⟨dW, true, 15000⟩ := by
  unfold generateKey
  rw [isDebit_bW, abs_bW, fmt150]
  rfl

theorem hex_sW_bW : isExactMatch sW bW = true := by
  unfold isExactMatch isSameDay amountsEqual
  rw [isDebit_sW, isDebit_bW, abs_sW, abs_bW]
  norm_num [sW, bW]

theorem disc_sW_bW : calculateDiscrepancy sW bW = 0 := by
  unfold calculateDiscrepancy
  rw [abs_sW, abs_bW]
  norm_num

theorem bucket_sW_bW : bucket [bW] (generateKey sW) = [bW] := by
  simp [bucket, key_sW, key_bW]

theorem avail_sW_bW :
    availableCandidates initialState.consumed (bucket [bW] (generateKey sW)) = [bW] := by
  rw [bucket_sW_bW]
  simp [availableCandidates, initialState]

theorem run_sW_bW : runSystemPass [sW] [bW] = ⟨[pW], [], ["BANK001"]⟩ := by
  unfold runSystemPass
  rw [List.foldl_cons, List.foldl_nil]
  rw [processSystemTxn_single_match [bW] initialState sW bW avail_sW_bW hex_sW_bW]
  rw [disc_sW_bW]
  rfl

theorem matched_sW_bW : (Match [sW] [bW]).matched = [pW] := by
  rw [Match_matched, run_sW_bW]

theorem mem_pW : pW ∈ (Match [sW] [bW]).matched := by
  rw [matched_sW_bW]
  exact List.mem_singleton_self pW

theorem isDebit_sX : IsDebit sX = true := by
  simp [IsDebit, sX, TransactionTypeDebit]

theorem abs_sX : AbsAmount sX = 150 := by
  norm_num [AbsAmount, sX]

theorem key_sX : generateKey sX = ⟨dW, true, 15000⟩ := by
  unfold generateKey
  rw [isDebit_sX, abs_sX, fmt150]
  rfl

theorem hex_sX_bW : isExactMatch sX bW = true := by
  unfold isExactMatch isSameDay amountsEqual
  rw [isDebit_sX, isDebit_bW, abs_sX, abs_bW]
  norm_num [sX, bW]

theorem disc_sX_bW : calculateDiscrepancy sX bW = 0 := by
  unfold calculateDiscrepancy
  rw [abs_sX, abs_bW]
  norm_num

theorem bucket_sX_bW : bucket [bW] (generateKey sX) = [bW] := by
  simp [bucket, key_sX, key_bW]

theorem avail_sX_bW :
    availableCandidates initialState.consumed (bucket [bW] (generateKey sX)) = [bW] := by
  rw [bucket_sX_bW]
  simp [availableCandidates, initialState]

theorem run_sWsX : runSystemPass [sW, sX] [bW] = ⟨[pW], [sX], ["BANK001"]⟩ := by
  unfold runSystemPass
  rw [List.foldl_cons, List.foldl_cons, List.foldl_nil]
  rw [processSystemTxn_single_match [bW] initialState sW bW avail_sW_bW hex_sW_bW]
  rw [disc_sW_bW]
  show processSystemTxn [bW] (⟨[pW], [], ["BANK001"]⟩ : MatchState) sX
      = ⟨[pW], [sX], ["BANK001"]⟩
  have h0 : ¬(bucket [bW] (generateKey sX)).length = 0 := by
    rw [bucket_sX_bW]
    simp
  have hav : availableCandidates (⟨[pW], [], ["BANK001"]⟩ : MatchState).consumed
      (bucket [bW] (generateKey sX)) = [] := by
    rw [bucket_sX_bW]
    simp [availableCandidates, bW]
  rw [processSystemTxn_exhausted [bW] ⟨[pW], [], ["BANK001"]⟩ sX h0 hav]
  rfl

theorem run_sXsW : runSystemPass [sX, sW] [bW] = ⟨[pX], [sW], ["BANK001"]⟩ := by
  unfold runSystemPass
  rw [List.foldl_cons, List.foldl_cons, List.foldl_nil]
  rw [processSystemTxn_single_match [bW] initialState sX bW avail_sX_bW hex_sX_bW]
  rw [disc_sX_bW]
  show processSystemTxn [bW] (⟨[pX], [], ["BANK001"]⟩ : MatchState) sW
      = ⟨[pX], [sW], ["BANK001"]⟩
  have h0 : ¬(bucket [bW] (generateKey sW)).length = 0 := by
    rw [bucket_sW_bW]
    simp
  have hav : availableCandidates (⟨[pX], [], ["BANK001"]⟩ : MatchState).consumed
      (bucket [bW] (generateKey sW)) = [] := by
    rw [bucket_sW_bW]
    simp [availableCandidates, bW]
  rw [processSystemTxn_exhausted [bW] ⟨[pX], [], ["BANK001"]⟩ sW h0 hav]
  rfl

/-- Counterexample to C9 as stated: with two system transactions
competing for one bank transaction, swapping the system list changes
which system transaction is paired, so the partition differs. -/
theorem C9_counterexample :
    ([sW, sX].Perm [sX, sW])
      ∧ (Match [sW, sX] [bW]).matched.map (fun p => p.systemTransaction.id) = ["SYS001"]
      ∧ (Match [sX, sW] [bW]).matched.map (fun p => p.systemTransaction.id) = ["SYS002"]
      ∧ ("SYS001" : String) ≠ "SYS002" := by
  refine ⟨List.Perm.swap sX sW [], ?_, ?_, by decide⟩
  · rw [Match_matched, run_sWsX]
    rfl
  · rw [Match_matched, run_sXsW]
    rfl

theorem fmt20000 : formatAmount 20000 = 0xFFFD := by
  unfold formatAmount goTrunc goRuneWrap goRuneScalar
  have hnn : ¬((20000 : ℚ) * 100 < 0) := by norm_num
  rw [if_neg hnn]
  have hfl : ⌊(20000 : ℚ) * 100⌋ = 2000000 := floor_eval (by norm_num) (by norm_num)
  rw [hfl]
  decide

theorem fmt30000 : formatAmount 30000 = 0xFFFD := by
  unfold formatAmount goTrunc goRuneWrap goRuneScalar
  have hnn : ¬((30000 : ℚ) * 100 < 0) := by norm_num
  rw [if_neg hnn]
  have hfl : ⌊(30000 : ℚ) * 100⌋ = 3000000 := floor_eval (by norm_num) (by norm_num)
  rw [hfl]
  decide

theorem abs_b3a : AbsAmount b3a = 20000 := by
  norm_num [AbsAmount, b3a]

theorem abs_b3b : AbsAmount b3b = 30000 := by
  norm_num [AbsAmount, b3b]

theorem key_b3a : generateKey b3a = ⟨dW, true, 0xFFFD⟩ := by
  unfold generateKey
  rw [abs_b3a, fmt20000]
  have hd : IsDebit b3a = true := by simp [IsDebit, b3a, TransactionTypeDebit]
  rw [hd]
  rfl

theorem key_b3b : generateKey b3b = ⟨dW, true, 0xFFFD⟩ := by
  unfold generateKey
  rw [abs_b3b, fmt30000]
  have hd : IsDebit b3b = true := by simp [IsDebit, b3b, TransactionTypeDebit]
  rw [hd]
  rfl

/-- Counterexample to C3 as stated: `b3a` (20000.00) and `b3b` (30000.00)
differ in absolute amount yet get the same grouping key and share a
bucket, because `formatAmount` collapses every cent value above
`0x10FFFF` to the replacement rune `U+FFFD`. -/
theorem C3_counterexample :
    generateKey b3a = generateKey b3b
      ∧ bucket [b3a, b3b] (generateKey b3a) = [b3a, b3b]
      ∧ AbsAmount b3a ≠ AbsAmount b3b := by
  refine ⟨?_, ?_, ?_⟩
  · rw [key_b3a, key_b3b]
  · simp [bucket, key_b3a, key_b3b]
  · rw [abs_b3a, abs_b3b]
    norm_num

theorem abs_s4 : AbsAmount s4 = 3/2 := by
  norm_num [AbsAmount, s4]

theorem abs_b4 : AbsAmount b4 = 3073/2048 := by
  norm_num [AbsAmount, b4]

theorem fmt_s4 : formatAmount (3/2) = 150 := by
  unfold formatAmount goTrunc goRuneWrap goRuneScalar
  have hnn : ¬((3 : ℚ)/2 * 100 < 0) := by norm_num
  rw [if_neg hnn]
  have hfl : ⌊(3 : ℚ)/2 * 100⌋ = 150 := floor_eval (by norm_num) (by norm_num)
  rw [hfl]
  decide

theorem fmt_b4 : formatAmount (3073/2048) = 150 := by
  unfold formatAmount goTrunc goRuneWrap goRuneScalar
  have hnn : ¬((3073 : ℚ)/2048 * 100 < 0) := by norm_num
  rw [if_neg hnn]
  have hfl : ⌊(3073 : ℚ)/2048 * 100⌋ = 150 := floor_eval (by norm_num) (by norm_num)
  rw [hfl]
  decide

theorem key_s4 : generateKey s4 = ⟨dW, true, 150⟩ := by
  unfold generateKey
  rw [abs_s4, fmt_s4]
  have hd : IsDebit s4 = true := by simp [IsDebit, s4, TransactionTypeDebit]
  rw [hd]
  rfl

theorem key_b4 : generateKey b4 = ⟨dW, true, 150⟩ := by
  unfold generateKey
  rw [abs_b4, fmt_b4]
  have hd : IsDebit b4 = true := by simp [IsDebit, b4, TransactionTypeDebit]
  rw [hd]
  rfl

theorem diff_s4_b4 : AbsAmount s4 - AbsAmount b4 = -(1/2048) := by
  rw [abs_s4, abs_b4]
  norm_num

theorem hex_s4_b4 : isExactMatch s4 b4 = true := by
  unfold isExactMatch isSameDay amountsEqual
  have hd : IsDebit s4 = true := by simp [IsDebit, s4, TransactionTypeDebit]
  have hd2 : IsDebit b4 = true := by simp [IsDebit, b4, TransactionTypeDebit]
  rw [hd, hd2]
  have habs : |AbsAmount s4 - AbsAmount b4| = 1/2048 := by
    rw [diff_s4_b4, abs_neg, abs_of_nonneg (by norm_num : (0:ℚ) ≤ 1/2048)]
  rw [habs]
  norm_num [s4, b4]

theorem disc_s4_b4 : calculateDiscrepancy s4 b4 = 1/2048 := by
  unfold calculateDiscrepancy
  rw [diff_s4_b4, abs_neg, abs_of_nonneg (by norm_num : (0:ℚ) ≤ 1/2048)]

theorem avail_s4_b4 :
    availableCandidates initialState.consumed (bucket [b4] (generateKey s4)) = [b4] := by
  have hb : bucket [b4] (generateKey s4) = [b4] := by
    simp [bucket, key_s4, key_b4]
  rw [hb]
  simp [availableCandidates, initialState]

theorem run_s4_b4 : runSystemPass [s4] [b4] = ⟨[p4], [], ["BANK401"]⟩ := by
  unfold runSystemPass
  rw [List.foldl_cons, List.foldl_nil]
  rw [processSystemTxn_single_match [b4] initialState s4 b4 avail_s4_b4 hex_s4_b4]
  rw [disc_s4_b4]
  rfl

/-- Counterexample to C4 as stated: matching 1.5 against 1.50048828125
(same cent bucket, within epsilon) emits a pair whose
`AmountDiscrepancy` is `1/2048`, not `0`. -/
theorem C4_counterexample :
    (Match [s4] [b4]).matched.map (fun p => p.amountDiscrepancy) = [1/2048]
      ∧ ((1 : ℚ)/2048) ≠ 0 := by
  constructor
  · rw [Match_matched, run_s4_b4]
    rfl
  · norm_num

theorem normalize_tZ : NormalizeAmount tZ = tZ := by
  have h1 : ¬(tZ.type = TransactionTypeDebit ∧ 0 < tZ.amount) := by
    intro hc
    have hlt : (0 : ℚ) < 0 := by simpa [tZ] using hc.2
    exact absurd hlt (lt_irrefl 0)
  have h2 : ¬(tZ.type = TransactionTypeCredit ∧ tZ.amount < 0) := by
    intro hc
    exact debit_ne_credit hc.1
  unfold NormalizeAmount
  rw [if_neg h1, if_neg h2]

/-- Counterexample to C5 as stated: a zero-amount DEBIT is left at `0`
by `NormalizeAmount`, and `0` is not negative. -/
theorem C5_counterexample :
    tZ.type = TransactionTypeDebit
      ∧ (NormalizeAmount tZ).amount = 0
      ∧ ¬((NormalizeAmount tZ).amount < 0) := by
  refine ⟨rfl, ?_, ?_⟩
  · rw [normalize_tZ]
    rfl
  · rw [normalize_tZ]
    show ¬((0 : ℚ) < 0)
    norm_num

theorem run_sW_nil : runSystemPass [sW] [] = ⟨[], [sW], []⟩ := by
  unfold runSystemPass
  rw [List.foldl_cons, List.foldl_nil]
  rw [processSystemTxn_noBucket [] initialState sW rfl]
  rfl

theorem tot_sW_nil : (Match [sW] []).totalSystemTxns = 1 := by
  rw [(Match_totals [sW] []).1, Match_matched, Match_unmatchedSystem, run_sW_nil]
  rfl



theorem isDebit_bY : IsDebit bY = true := by
  simp [IsDebit, bY, TransactionTypeDebit]

theorem abs_bY : AbsAmount bY = 150 := by
  norm_num [AbsAmount, bY]

theorem tot_sW_nil_ne :
    ¬((Match [sW] []).totalSystemTxns = 0 ∧ (Match [sW] []).totalBankTxns = 0) := by
  intro hc
  rw [tot_sW_nil] at hc
  exact absurd hc.1 one_ne_zero

/-- Witness for C1 at the one-match scenario. -/
theorem C1_witness :
    (([bW].map (fun b => b.id)).Nodup)
      ∧ ((Match [sW] [bW]).matched.length
          + (Match [sW] [bW]).unmatchedSystem.length = ([sW] : List Transaction).length
        ∧ (Match [sW] [bW]).matched.length
          + (Match [sW] [bW]).unmatchedBank.length = ([bW] : List Transaction).length) :=
  ⟨by simp, C1_partition_completeness [sW] [bW] (by simp)⟩

/-- Witness for C2: two same-key unconsumed bank transactions make `sW`
ambiguous and leave the state otherwise untouched; an unclaimed bank
transaction surfaces in `unmatchedBank`. -/
theorem C2_witness :
    (bW.id ≠ bY.id)
      ∧ processSystemTxn [bW, bY] initialState sW
        = { initialState with unmatchedSystem := initialState.unmatchedSystem ++ [sW] }
      ∧ bW ∈ (Match [] [bW]).unmatchedBank := by
  refine ⟨by decide, ?_, ?_⟩
  · exact C2_ambiguity_conservatism.1 [bW, bY] initialState sW bW bY
      (by simp) (by simp) (by decide) rfl (by rw [isDebit_bW, isDebit_sW])
      (by rw [abs_bW, abs_sW]) rfl (by rw [isDebit_bY, isDebit_sW])
      (by rw [abs_bY, abs_sW]) (by simp [initialState]) (by simp [initialState])
  · exact C2_ambiguity_conservatism.2 [] [bW] bW (by simp)
      (by
        intro p hp
        have hm : (Match [] [bW]).matched = [] := rfl
        rw [hm] at hp
        simp at hp)

/-- Witness for the amended C3: agreement on the key triple gives equal
keys, and a unique available exact-matching candidate is consumed. -/
theorem C3_witness :
    generateKey bW = generateKey bY
      ∧ processSystemTxn [bW] initialState sW
        = { matched := initialState.matched ++
              [{ systemTransaction := sW
                 bankTransaction := bW
                 confidenceScore := 100
                 amountDiscrepancy := calculateDiscrepancy sW bW }]
            unmatchedSystem := initialState.unmatchedSystem
            consumed := initialState.consumed ++ [bW.id] } := by
  constructor
  · exact C3_bucketing_key.2.1 bW bY rfl (by rw [isDebit_bW, isDebit_bY])
      (by rw [abs_bW, abs_bY])
  · exact C3_bucketing_key.2.2 [bW] initialState sW bW avail_sW_bW hex_sW_bW

/-- Witness for the amended C4 at the concrete matched pair `pW`. -/
theorem C4_witness :
    pW ∈ (Match [sW] [bW]).matched
      ∧ (pW.confidenceScore = 100
        ∧ 0 ≤ pW.amountDiscrepancy
        ∧ pW.amountDiscrepancy < 1 / 1000) :=
  ⟨mem_pW, C4_confidence_and_discrepancy [sW] [bW] pW mem_pW⟩

/-- Witness for the amended C5 at a positive-amount DEBIT. -/
theorem C5_witness :
    tP.type = TransactionTypeDebit ∧ (NormalizeAmount tP).amount ≤ 0 :=
  ⟨rfl, (C5_sign_after_normalization tP).1 rfl⟩

/-- Witness for C8 at a scenario with nonzero totals. -/
theorem C8_witness :
    ¬((Match [sW] []).totalSystemTxns = 0 ∧ (Match [sW] []).totalBankTxns = 0)
      ∧ (Match [sW] []).matchRate
        = 2 * ((Match [sW] []).totalMatched : ℚ)
          / (((Match [sW] []).totalSystemTxns : ℚ)
            + ((Match [sW] []).totalBankTxns : ℚ)) * 100 :=
  ⟨tot_sW_nil_ne, (C8_match_rate [sW] []).2.1 tot_sW_nil_ne⟩

/-- Witness for the amended C9 at a concrete bank-list swap. -/
theorem C9_witness :
    ([bW, bY].Perm [bY, bW])
      ∧ ((Match [sW] [bW, bY]).matched = (Match [sW] [bY, bW]).matched
        ∧ (Match [sW] [bW, bY]).unmatchedSystem
          = (Match [sW] [bY, bW]).unmatchedSystem
        ∧ ((Match [sW] [bW, bY]).unmatchedBank).Perm
          ((Match [sW] [bY, bW]).unmatchedBank)
        ∧ (Match [sW] [bW, bY]).matchRate = (Match [sW] [bY, bW]).matchRate
        ∧ (Match [sW] [bW, bY]).totalDiscrepancy
          = (Match [sW] [bY, bW]).totalDiscrepancy) :=
  ⟨List.Perm.swap bY bW [],
    C9_bank_order_invariance [sW] [bW, bY] [bY, bW] (List.Perm.swap bY bW [])⟩

/-- Witness for C10 at the concrete matched pair `pW`. -/
theorem C10_witness :
    pW ∈ (Match [sW] [bW]).matched
      ∧ (isSameDay pW.systemTransaction.transactionDate
            pW.bankTransaction.transactionDate = true
        ∧ IsDebit pW.systemTransaction = IsDebit pW.bankTransaction
        ∧ |AbsAmount pW.systemTransaction - AbsAmount pW.bankTransaction| < 1 / 1000
        ∧ pW.amountDiscrepancy < 1 / 1000) :=
  ⟨mem_pW, C10_matched_pairs_exact [sW] [bW] pW mem_pW⟩

end Reconcile
